import Mathlib

/-!
Verification of the fontParts contour/segment/bPoint core
(`Lib/fontParts/base/contour.py`, `Lib/fontParts/base/bPoint.py`,
`Lib/fontParts/base/anchor.py`, `Lib/fontParts/objects/base/base.py`).

The point list of a contour is embedded as a `List Point` with rational
coordinates.  The segment derivation of `BaseContour._get_segments` is
embedded as a pure function on lists; stateful operations become
functions from point lists to point lists, with `Except PyErr` results
for operations that can raise.  Python object identity of points is
modelled, where needed, by running the same algorithms over index-tagged
points (`Nat × Point`), since the source algorithms only ever inspect a
point's `type` attribute when grouping.
-/

set_option autoImplicit false

namespace FontParts

/-- The `type` attribute of a point:
one of "move", "line", "curve", "qcurve", "offcurve". -/
inductive PointType where
  | move
  | line
  | curve
  | qcurve
  | offcurve
deriving DecidableEq, Repr

/-- A point of a contour: coordinates, type tag and smooth flag
(`fontParts.base.point`; name/identifier attributes are carried through
all the operations verified here unchanged and are omitted).
Coordinates are integers: none of the verified operations uses more of
the coordinate structure than equality, addition and subtraction. -/
structure Point where
  x : ℤ
  y : ℤ
  ptype : PointType
  smooth : Bool
deriving DecidableEq, Repr

/-- Python exception kinds that the embedded operations can surface.
The source raises `FontPartsError` explicitly; `IndexError`,
`AttributeError` and `AssertionError` arise from out-of-range sequence
indexing, attribute access on unsuitable objects (`None`, tuples) and
failed `assert` statements respectively. -/
inductive PyErr where
  | fontPartsError
  | indexError
  | attributeError
  | assertionError
  | valueError
deriving DecidableEq, Repr

/-!
### Segment derivation (`BaseContour._get_segments`)

The scan loop

    segments = [[]]
    for point in points:
        segments[-1].append(point)
        if point.type != "offcurve":
            segments.append([])
    if len(segments[-1]) == 0:
        del segments[-1]

groups each run of off-curve points with the on-curve point terminating
it; a trailing run of off-curve points with no terminator stays as a
final incomplete group.  `groupPts` is that loop written as structural
recursion from the left: a non-off-curve point closes its own group, an
off-curve point joins the group of the next points.  The function is
polymorphic in the point representation, parametrised by the projection
`f` to the `type` attribute, because that is the only attribute the
source loop reads.
-/

/-- The grouping loop of `_get_segments`. -/
def groupPts {α : Type} (f : α → PointType) : List α → List (List α)
  | [] => []
  | p :: rest =>
    if f p = PointType.offcurve then
      match groupPts f rest with
      | [] => [[p]]
      | g :: gs => (p :: g) :: gs
    else [p] :: groupPts f rest

/-- `_get_segments` after the scan loop: handling of a trailing
off-curve run (discarded when the contour starts with a move, spliced
onto the front group otherwise) and rotation of the first group to the
end for closed contours.  `none` models the exceptions the source would
raise: `IndexError` on an empty point list (`points[0]`), and the
`assert len(segments[0]) == 1` failure in the splice branch. -/
def get_segments {α : Type} (f : α → PointType) (points : List α) :
    Option (List (List α)) :=
  match points with
  | [] => none
  | p0 :: rest =>
    let firstIsMove := f p0 = PointType.move
    let lastWasOffCurve :=
      f ((p0 :: rest).getLast (List.cons_ne_nil p0 rest)) = PointType.offcurve
    let segments := groupPts f (p0 :: rest)
    if lastWasOffCurve ∧ firstIsMove then
      -- ignore trailing off curves
      some segments.dropLast
    else if lastWasOffCurve then
      -- splice the trailing off-curve run onto the front group and
      -- rotate it to the end
      match segments.getLast? with
      | none => none
      | some t =>
        match segments.dropLast with
        | [] => none
        | g0 :: gs =>
          match g0 with
          | [x] => some (gs ++ [t ++ [x]])
          | _ => none
    else if firstIsMove then
      some segments
    else
      -- closed contour: rotate the first group to the end
      match segments with
      | [] => none
      | g0 :: gs => some (gs ++ [g0])

/-- Segment derivation over plain points. -/
def segmentsOf (pts : List Point) : Option (List (List Point)) :=
  get_segments Point.ptype pts

/-- Segment derivation over index-tagged points, modelling Python
object identity of the wrapped point objects. -/
def segmentsIdxOf (pts : List Point) : Option (List (List (Nat × Point))) :=
  get_segments (fun ip => ip.2.ptype) pts.enum

/-- Modelled from the spec: a segment's `type` is the stored type of its
terminating on-curve point (the segment class is not part of the
analysed sources; spec section 4.3 step 4).  Empty segments never occur;
the default is arbitrary. -/
def segType {α : Type} (f : α → PointType) (g : List α) : PointType :=
  match g.getLast? with
  | some p => f p
  | none => PointType.offcurve

/-- Modelled from the spec: a segment's `smooth` flag mirrors its
on-curve point's smooth flag (spec section 3, Segment). -/
def segSmooth {α : Type} (f : α → Bool) (g : List α) : Bool :=
  match g.getLast? with
  | some p => f p
  | none => false

/-- First point of the contour has type move; `_get_segments` computes
this as `points[0].type == "move"`. -/
def firstIsMoveOf (pts : List Point) : Bool :=
  match pts with
  | [] => false
  | p :: _ => p.ptype = PointType.move

/-- Modelled from the spec: the `open` attribute of a contour is
backend-supplied (`_get_open` has no base implementation); per spec
section 3 an open contour is exactly one whose first point is a move. -/
def contourOpen (pts : List Point) : Bool :=
  firstIsMoveOf pts

/-- A complete segment group: a (possibly empty) run of off-curve
points terminated by one non-off-curve point. -/
def IsChunk {α : Type} (f : α → PointType) (g : List α) : Prop :=
  ∃ r x, g = r ++ [x] ∧ (∀ p ∈ r, f p = PointType.offcurve) ∧
    f x ≠ PointType.offcurve

/-- An all-off-curve run. -/
def IsRun {α : Type} (f : α → PointType) (g : List α) : Prop :=
  ∀ p ∈ g, f p = PointType.offcurve

/-- The point list with its maximal trailing run of off-curve points
removed. -/
def dropTrailingOffCurves {α : Type} (f : α → PointType) (l : List α) :
    List α :=
  (l.reverse.dropWhile (fun p => f p = PointType.offcurve)).reverse

/-- Point constructor shorthand for concrete examples. -/
def pt (x y : ℤ) (t : PointType) (s : Bool) : Point :=
  ⟨x, y, t, s⟩

/-- `BaseContour.insertPoint`: insert a point at an index of the point
list.  The point-list storage itself is backend-supplied
(`_insertPoint` must be overridden); modelled from the spec, section
4.2: insertion at index `i` of the ordered point sequence. -/
def insertPoint (pts : List Point) (i : Nat) (p : Point) : List Point :=
  pts.take i ++ [p] ++ pts.drop i

/-- The contour used by the C1 witness: a closed contour of two curve
segments whose point list ends in off-curve points. -/
def spliceP0 : Point := pt 0 0 PointType.curve true

/-- Remaining points of the C1 witness contour. -/
def spliceRest : List Point :=
  [pt 2 2 PointType.offcurve false, pt 8 2 PointType.offcurve false,
   pt 10 0 PointType.curve true, pt 8 (-2) PointType.offcurve false,
   pt 2 (-2) PointType.offcurve false]

/-- First point of the closed three-line contour of P5. -/
def sqP0 : Point := pt 0 0 PointType.line false

/-- Remaining points of the closed three-line contour of P5. -/
def sqRest : List Point :=
  [pt 10 0 PointType.line false, pt 10 10 PointType.line false]

/-- The fourth line point inserted in P5. -/
def sqP3 : Point := pt 0 10 PointType.line false

/-- The compatibility reporter of `BaseContour._isCompatible`.
Modelled from the spec: the reporter class
(`ContourCompatibilityReporter`) is outside the analysed sources; it is
a record of boolean flags, all initialised false, set directly by
`_isCompatible`, plus the list of appended per-segment-pair reports
(kept here as their (fatal, warning) flags). -/
structure CompatReporter where
  openDifference : Bool
  directionDifference : Bool
  segmentCountDifference : Bool
  fatal : Bool
  warning : Bool
  segments : List (Bool × Bool)
deriving DecidableEq, Repr

/-- Modelled from the spec: per-segment compatibility
(`segment1.isCompatible(segment2)`, outside the analysed sources) —
a segment type mismatch is fatal, a smooth mismatch is a warning
(spec section 4.3).  Returns the pair (fatal, warning). -/
def segmentPairCompat (s1 s2 : List Point) : Bool × Bool :=
  (decide (segType Point.ptype s1 ≠ segType Point.ptype s2),
   decide (segSmooth Point.smooth s1 ≠ segSmooth Point.smooth s2))

/-- The (fatal, warning) pair of the `i`-th compared segment pair. -/
def segPairFW (segs1 segs2 : List (List Point)) (i : Nat) : Bool × Bool :=
  segmentPairCompat (segs1.getD i []) (segs2.getD i [])

/-- One iteration of the segment-pair loop of
`BaseContour._isCompatible`: flags bubble up into the reporter and the
pair report is appended when it is fatal or warning. -/
def compatStep (segs1 segs2 : List (List Point)) (r : CompatReporter)
    (i : Nat) : CompatReporter :=
  if (segPairFW segs1 segs2 i).1 || (segPairFW segs1 segs2 i).2 then
    { r with
      fatal := if (segPairFW segs1 segs2 i).1 then true else r.fatal
      warning := if (segPairFW segs1 segs2 i).2 then true else r.warning
      segments := r.segments ++ [segPairFW segs1 segs2 i] }
  else r

/-- `BaseContour._isCompatible`: open/closed difference and direction
difference set their flags, a segment count difference sets its flag
and `fatal`, then the per-segment loop runs over
`min(len(self), len(other))` pairs.  The clockwise values are oracle
inputs because orientation is computed by a pen collaborator
(`_get_clockwise` is backend-supplied).  `none` models the exception
propagated when either contour's segment derivation raises. -/
def contourIsCompatible (c1 c2 : List Point) (cw1 cw2 : Bool) :
    Option CompatReporter :=
  match segmentsOf c1, segmentsOf c2 with
  | some segs1, some segs2 =>
    let r0 : CompatReporter :=
      { openDifference := contourOpen c1 != contourOpen c2
        directionDifference := cw1 != cw2
        segmentCountDifference := segs1.length != segs2.length
        fatal := segs1.length != segs2.length
        warning := false
        segments := [] }
    some ((List.range (min segs1.length segs2.length)).foldl
      (compatStep segs1 segs2) r0)
  | _, _ => none

/-!
### Transform utilities (C8)

From `TransformationMixin.transformBy` in
`Lib/fontParts/objects/base/base.py` and `BaseAnchor._transformBy` in
`Lib/fontParts/base/anchor.py`.
-/

/-- A 2x3 affine transformation matrix `(a, b, c, d, e, f)`. -/
structure AffineMatrix where
  a : ℚ
  b : ℚ
  c : ℚ
  d : ℚ
  e : ℚ
  f : ℚ
deriving DecidableEq, Repr

/-- Modelled from the spec:
`fontTools.misc.transform.Transform.transformPoint` (external
collaborator) maps `(x, y)` to `(a*x + c*y + e, b*x + d*y + f)`
(spec section 4.5). -/
def transformPoint (m : AffineMatrix) (p : ℚ × ℚ) : ℚ × ℚ :=
  (m.a * p.1 + m.c * p.2 + m.e, m.b * p.1 + m.d * p.2 + m.f)

/-- The origin-offset computation of `transformBy`: zero when the
origin is `(0, 0)`, otherwise the origin position before the transform
minus its position after applying the matrix. -/
def originOffsetOf (m : AffineMatrix) (origin : ℚ × ℚ) : ℚ × ℚ :=
  if origin = (0, 0) then (0, 0)
  else (origin.1 - (transformPoint m origin).1,
        origin.2 - (transformPoint m origin).2)

/-- `transformBy` followed by `BaseAnchor._transformBy` at a single
positioned point: apply the matrix, then `moveBy(originOffset)` unless
the offset is zero (`moveBy` composes a pure-offset matrix with
`transformBy`, which amounts to coordinate-wise addition). -/
def transformByAt (m : AffineMatrix) (origin p : ℚ × ℚ) : ℚ × ℚ :=
  if originOffsetOf m origin ≠ (0, 0) then
    ((transformPoint m p).1 + (originOffsetOf m origin).1,
     (transformPoint m p).2 + (originOffsetOf m origin).2)
  else transformPoint m p

/-!
### Identity-tagged point-list operations

The bPoint and setStartSegment operations mutate specific point
objects found through the segment view.  Each embedded operation
enumerates the point list once (`pts.enum`), so a point's tag is its
position at the start of the operation, and all reads and writes within
the operation refer to tags, mirroring Python object identity.
-/

/-- Whether `g` is the segment whose on-curve (terminating) point is
the point tagged `j` (`BaseBPoint._segment` searches
`self.contour.segments` for the segment with `segment.onCurve ==
point`). -/
def isSegOf (j : Nat) (g : List (Nat × Point)) : Bool :=
  match g.getLast? with
  | some ip => ip.1 == j
  | none => false

/-- Position and contents of the segment terminating at tag `j`. -/
def findSegPos (segs : List (List (Nat × Point))) (j : Nat) :
    Option (Nat × List (Nat × Point)) :=
  segs.enum.find? (fun ks => isSegOf j ks.2)

/-- `BaseBPoint._nextSegment`: index of the following segment,
wrapping to 0 past the end (`i = segments.index(segment) + 1; if i >=
len(segments): i = i % len(segments)`). -/
def nextSegIndex (segs : List (List (Nat × Point))) (si : Nat) : Nat :=
  if si + 1 ≥ segs.length then (si + 1) % segs.length else si + 1

/-- `removePoint(point)` by object identity. -/
def removeById (ipts : List (Nat × Point)) (j : Nat) :
    List (Nat × Point) :=
  ipts.filter (fun ip => ip.1 != j)

/-- In-place attribute update of the point tagged `j`. -/
def updateById (ipts : List (Nat × Point)) (j : Nat) (f : Point → Point) :
    List (Nat × Point) :=
  ipts.map (fun ip => if ip.1 = j then (ip.1, f ip.2) else ip)

/-- In-place attribute update of the point at position `j` of a plain
point list (positions equal tags before any structural change). -/
def updateAt (pts : List Point) (j : Nat) (f : Point → Point) :
    List Point :=
  (pts.enum).map (fun ip => if ip.1 = j then f ip.2 else ip.2)

/-- The on-curve (x, y) of a segment over tagged points. -/
def onCurveXY (seg : List (Nat × Point)) : ℤ × ℤ :=
  match seg.getLast? with
  | some ip => (ip.2.x, ip.2.y)
  | none => (0, 0)

/-- The on-curve (x, y) of a segment over plain points. -/
def onCurveXYP (seg : List Point) : ℤ × ℤ :=
  match seg.getLast? with
  | some p => (p.x, p.y)
  | none => (0, 0)

/-!
### bPoint handle reads and writes (C5, C6)

From `BaseBPoint` in `Lib/fontParts/base/bPoint.py`.  The segment
`type` setter lives in the segment class, outside the analysed sources;
its effect is modelled from the spec (section 4.4): downgrading to
`line` removes the segment's off-curve points, upgrading to `curve`
creates the needed off-curve points (zero-length handles).
-/

/-- `absoluteBCPIn`: convert a relative incoming handle to absolute. -/
def absoluteBCPIn (anchor value : ℤ × ℤ) : ℤ × ℤ :=
  (value.1 + anchor.1, value.2 + anchor.2)

/-- `absoluteBCPOut`: convert a relative outgoing handle to absolute. -/
def absoluteBCPOut (anchor value : ℤ × ℤ) : ℤ × ℤ :=
  (value.1 + anchor.1, value.2 + anchor.2)

/-- `BaseBPoint._get_bcpIn`: last off-curve of the own segment relative
to the anchor, or zero. -/
def bcpInGet (seg : List (Nat × Point)) (anchor : ℤ × ℤ) : ℤ × ℤ :=
  match seg.dropLast.getLast? with
  | some ip => (ip.2.x - anchor.1, ip.2.y - anchor.2)
  | none => (0, 0)

/-- `BaseBPoint._get_bcpOut`: first off-curve of the next segment
relative to the anchor, or zero. -/
def bcpOutGet (segs : List (List (Nat × Point))) (si : Nat)
    (anchor : ℤ × ℤ) : ℤ × ℤ :=
  match (segs.getD (nextSegIndex segs si) []).dropLast.head? with
  | some ip => (ip.2.x - anchor.1, ip.2.y - anchor.2)
  | none => (0, 0)

/-- Modelled from the spec: `segment.type = "line"` on a curve segment
removes the segment's off-curve points; `_set_bcpIn` additionally sets
`segment.smooth = False` (retyping the on-curve point and clearing its
smooth flag). -/
def segmentToLine (pts : List Point) (seg : List (Nat × Point))
    (i : Nat) : List Point :=
  ((pts.enum).filter
    (fun ip => decide (ip.1 ∉ seg.dropLast.map Prod.fst))).map
    (fun ip =>
      if ip.1 = i then
        { ip.2 with ptype := PointType.line, smooth := false }
      else ip.2)

/-- Modelled from the spec: `segment.type = "curve"` on a segment
without off-curve points creates the two off-curve points (zero-length
handles at the previous on-curve point and at the anchor); `_set_bcpIn`
then overwrites the incoming one (`offCurves[-1]`) with the written
coordinates, collapsed here into inserting it at its final value.  The
on-curve point is retyped to curve. -/
def segmentToCurveIn (pts : List Point) (segs : List (List (Nat × Point)))
    (si : Nat) (i : Nat) (q : ℤ × ℤ) : List Point :=
  let prevOn := onCurveXY (segs.getD ((si + segs.length - 1) % segs.length) [])
  (updateAt pts i (fun p => { p with ptype := PointType.curve })).take i ++
    [pt prevOn.1 prevOn.2 PointType.offcurve false,
     pt q.1 q.2 PointType.offcurve false] ++
    (updateAt pts i (fun p => { p with ptype := PointType.curve })).drop i

/-- Modelled from the spec: `nextSegment.type = "curve"` creates the
next segment's two off-curve points (zero-length handles at the anchor
and at the next on-curve point), inserted before the next on-curve
point, with fresh tags.  The next on-curve point is retyped to
curve. -/
def nextSegmentToCurve (ipts : List (Nat × Point)) (nextOnId : Nat)
    (anchor nextOn : ℤ × ℤ) : List (Nat × Point) :=
  match ipts with
  | [] => []
  | ip :: rest =>
    if ip.1 = nextOnId then
      (ipts.length + 1000, pt anchor.1 anchor.2 PointType.offcurve false) ::
      (ipts.length + 1001, pt nextOn.1 nextOn.2 PointType.offcurve false) ::
      (ip.1, { ip.2 with ptype := PointType.curve }) :: rest
    else ip :: nextSegmentToCurve rest nextOnId anchor nextOn

/-- `BaseBPoint._set_bcpIn` for the bPoint wrapping the point at
position `i`: raise when the own segment is a move and the value is
non-zero; otherwise overwrite the last off-curve (or downgrade the
segment to a line when both handles become zero), or upgrade the
segment to a curve when there is no off-curve and the value is
non-zero. -/
def setBcpIn (pts : List Point) (i : Nat) (v : ℤ × ℤ) :
    Except PyErr (List Point) :=
  match pts[i]? with
  | none => Except.error PyErr.attributeError
  | some p =>
    match segmentsIdxOf pts with
    | none => Except.error PyErr.indexError
    | some segs =>
      match findSegPos segs i with
      | none => Except.error PyErr.attributeError
      | some si =>
        if segType (fun ip => ip.2.ptype) si.2 = PointType.move ∧
            v ≠ (0, 0) then
          Except.error PyErr.fontPartsError
        else
          match si.2.dropLast.getLast? with
          | some bcp =>
            if v = (0, 0) ∧ bcpOutGet segs si.1 (p.x, p.y) = (0, 0) then
              Except.ok (segmentToLine pts si.2 i)
            else
              Except.ok (updateAt pts bcp.1 (fun q =>
                { q with x := (absoluteBCPIn (p.x, p.y) v).1,
                         y := (absoluteBCPIn (p.x, p.y) v).2 }))
          | none =>
            if v ≠ (0, 0) then
              Except.ok (segmentToCurveIn pts segs si.1 i
                (absoluteBCPIn (p.x, p.y) v))
            else Except.ok pts

/-- `BaseBPoint._set_bcpOut` for the bPoint wrapping the point at
position `i`: raise when the next segment is a move and the value is
non-zero.  When the next segment has off-curves and both handles become
zero, the source executes `offCurves.type = "line"` — an attribute
assignment on the off-curve tuple, which raises `AttributeError`
(modelled from the spec: `segment.offCurve` is the tuple of off-curve
points).  In the upgrade branch the source reads `segment.offCurve`
(the own segment, not the next one) and writes `offCurves[0]`, raising
`IndexError` when the own segment has no off-curves. -/
def setBcpOut (pts : List Point) (i : Nat) (v : ℤ × ℤ) :
    Except PyErr (List Point) :=
  match pts[i]? with
  | none => Except.error PyErr.attributeError
  | some p =>
    match segmentsIdxOf pts with
    | none => Except.error PyErr.indexError
    | some segs =>
      match findSegPos segs i with
      | none => Except.error PyErr.attributeError
      | some si =>
        if segType (fun ip => ip.2.ptype)
            (segs.getD (nextSegIndex segs si.1) []) = PointType.move ∧
            v ≠ (0, 0) then
          Except.error PyErr.fontPartsError
        else
          match (segs.getD (nextSegIndex segs si.1) []).dropLast.head? with
          | some bcp =>
            if v = (0, 0) ∧ bcpInGet si.2 (p.x, p.y) = (0, 0) then
              Except.error PyErr.attributeError
            else
              Except.ok (updateAt pts bcp.1 (fun q =>
                { q with x := (absoluteBCPOut (p.x, p.y) v).1,
                         y := (absoluteBCPOut (p.x, p.y) v).2 }))
          | none =>
            if v ≠ (0, 0) then
              match si.2.dropLast.head? with
              | none => Except.error PyErr.indexError
              | some ownOff =>
                Except.ok ((updateById
                  (nextSegmentToCurve pts.enum
                    (match (segs.getD (nextSegIndex segs si.1)
                        []).getLast? with
                      | some ip => ip.1
                      | none => 0)
                    (p.x, p.y)
                    (onCurveXY (segs.getD (nextSegIndex segs si.1) [])))
                  ownOff.1 (fun q =>
                    { q with x := (absoluteBCPOut (p.x, p.y) v).1,
                             y := (absoluteBCPOut (p.x, p.y) v).2 })).map
                  Prod.snd)
            else Except.ok pts

/-- The all-curve closed contour of the C5 scenario: two smooth curve
segments between (0,0) and (10,0). -/
def c5pts : List Point :=
  [pt 0 0 PointType.curve true, pt 2 2 PointType.offcurve false,
   pt 8 2 PointType.offcurve false, pt 10 0 PointType.curve true,
   pt 8 (-2) PointType.offcurve false, pt 2 (-2) PointType.offcurve false]

/-- c5pts after `bcpIn = (0, 0)` on the bPoint at point 0: the incoming
off-curve has been moved onto the anchor, the segment is still a
curve. -/
def c5mid : List Point :=
  [pt 0 0 PointType.curve true, pt 2 2 PointType.offcurve false,
   pt 8 2 PointType.offcurve false, pt 10 0 PointType.curve true,
   pt 8 (-2) PointType.offcurve false, pt 0 0 PointType.offcurve false]

/-!
### bPoint insertion (C4)

From `BaseContour._insertBPoint`, `insertSegment` and `appendSegment`
in `Lib/fontParts/base/contour.py`.  `insertSegment`/`appendSegment`
return `None`; `_insertBPoint` binds that result (`newSegment = ...` /
`new = ...`) and later accesses attributes on it, which raises
`AttributeError`.
-/

/-- The bPoint `type` argument. -/
inductive BPointType where
  | corner
  | curve
deriving DecidableEq, Repr

/-- `BaseContour._insertSegment`: insert the on-curve point at the
given index, then each off-curve point (in reverse) at the same
index.  `points` is the ordered coordinate list ending with the
on-curve point. -/
def insertSegmentPts (pts : List Point) (index : Nat) (ty : PointType)
    (points : List (ℤ × ℤ)) (smooth : Bool) : List Point :=
  match points.getLast? with
  | none => pts
  | some onCurve =>
    (points.dropLast.reverse).foldl
      (fun acc q => insertPoint acc index (pt q.1 q.2 PointType.offcurve false))
      (insertPoint pts index (pt onCurve.1 onCurve.2 ty smooth))

/-- `BaseContour._appendSegment`: `self._insertSegment(len(self), ...)`
— note that `len(self)` is the segment count, used as the point
insertion index. -/
def appendSegmentPts (pts : List Point) (ty : PointType)
    (points : List (ℤ × ℤ)) (smooth : Bool) : Except PyErr (List Point) :=
  match segmentsOf pts with
  | none => Except.error PyErr.indexError
  | some segs => Except.ok (insertSegmentPts pts segs.length ty points smooth)

/-- The move-branch prefix of `_insertBPoint` up to and including the
first `appendSegment` call and the `new.smooth = True` access. -/
def appendFirstMoveBranch (pts : List Point)
    (segs : List (List Point)) (index : Nat) (ty : BPointType)
    (anchor bcpIn : ℤ × ℤ) : Except PyErr (List Point) :=
  if bcpIn ≠ (0, 0) then
    match appendSegmentPts pts PointType.curve
        [onCurveXYP (segs.getD ((index + segs.length - 1) % segs.length) []),
         absoluteBCPIn anchor bcpIn, anchor] false with
    | Except.error e => Except.error e
    | Except.ok pts1 =>
      if ty = BPointType.curve then
        -- new.smooth = True on None
        Except.error PyErr.attributeError
      else Except.ok pts1
  else
    appendSegmentPts pts PointType.line [anchor] false

/-- `BaseContour._insertBPoint`.  In the non-move branch the source
binds `newSegment = self.insertSegment(...)`, but `insertSegment`
returns `None`, so the later `newSegment.offCurve[1]` raises
`AttributeError` (the source lines from that access onward are
unreachable without an exception).  In the move branch, `new =
self.appendSegment(...)` is also `None`, so `new.smooth = True` raises
when `type == "curve"` and `bcpIn` is non-zero. -/
def insertBPointE (pts : List Point) (index : Nat) (ty : BPointType)
    (anchor bcpIn bcpOut : ℤ × ℤ) : Except PyErr (List Point) :=
  match segmentsOf pts with
  | none => Except.error PyErr.indexError
  | some segs =>
    match segs[index]? with
    | none => Except.error PyErr.indexError
    | some nextSegment =>
      if segType Point.ptype nextSegment ≠ PointType.move ∧
          segType Point.ptype nextSegment ≠ PointType.line ∧
          segType Point.ptype nextSegment ≠ PointType.curve then
        Except.error PyErr.fontPartsError
      else if segType Point.ptype nextSegment = PointType.move then
        -- prevSegment = segments[index - 1] (negative index wraps)
        match appendFirstMoveBranch pts segs index ty anchor bcpIn with
        | Except.error e => Except.error e
        | Except.ok pts1 =>
          if bcpOut ≠ (0, 0) then
            appendSegmentPts pts1 PointType.curve
              [absoluteBCPOut anchor bcpOut, onCurveXYP nextSegment,
               onCurveXYP nextSegment] false
          else Except.ok pts1
      else
        match
          (if segType Point.ptype nextSegment ≠ PointType.curve then
            Except.ok (onCurveXYP
              (segs.getD ((index + segs.length - 1) % segs.length) []))
          else
            match nextSegment.dropLast.head? with
            | some q => Except.ok (q.x, q.y)
            | none => Except.error PyErr.indexError) with
        | Except.error e => Except.error e
        | Except.ok prevOut =>
          -- newSegment = self.insertSegment(...) — the state mutates,
          -- the bound result is None
          match segmentsOf
              (insertSegmentPts pts index PointType.curve
                [prevOut, anchor, anchor] false) with
          | none => Except.error PyErr.indexError
          | some segs1 =>
            if segType Point.ptype
                (segs1.getD (if index + 1 ≥ segs1.length then 0
                  else index + 1) []) = PointType.move then
              Except.error PyErr.fontPartsError
            else if segType Point.ptype
                (segs1.getD (if index + 1 ≥ segs1.length then 0
                  else index + 1) []) = PointType.qcurve then
              Except.ok (insertSegmentPts pts index PointType.curve
                [prevOut, anchor, anchor] false)
            else
              -- newIn = newSegment.offCurve[1] with newSegment = None
              Except.error PyErr.attributeError

/-- The closed square contour of Scenario C. -/
def sq4pts : List Point :=
  [pt 0 0 PointType.line false, pt 10 0 PointType.line false,
   pt 10 10 PointType.line false, pt 0 10 PointType.line false]

/-!
### setStartSegment (C7)

From `BaseContour._setStartSegment` and `removeSegment`.
-/

/-- `BaseContour._removeSegment(k)`: remove every point of segment `k`
from the point list (by identity). -/
def removeSegmentAt (pts : List Point) (k : Nat) : List Point :=
  match segmentsIdxOf pts with
  | none => pts
  | some segs =>
    ((pts.enum).filter
      (fun ip => decide (ip.1 ∉ (segs.getD k []).map Prod.fst))).map
      Prod.snd

/-- The remainder of `_setStartSegment` after the duplicate-elision
branch: refresh the segments, convert a leading move segment to a line
(`segments[0].type = "line"`, modelled from the spec as retyping the
segment's on-curve point), reorder the segments
(`segments[segmentIndex:] + segments[:segmentIndex]`) and rebuild the
point list from the live point attributes. -/
def rotateToSegment (pts : List Point) (segmentIndex : Nat) :
    Option (List Point) :=
  match segmentsIdxOf pts with
  | none => none
  | some segs =>
    let pts2 := match (segs.getD 0 []).getLast? with
      | some ip =>
        if ip.2.ptype = PointType.move then
          updateAt pts ip.1 (fun q => { q with ptype := PointType.line })
        else pts
      | none => pts
    some (((segs.drop segmentIndex ++ segs.take segmentIndex).flatten).map
      (fun ip => pts2.getD ip.1 ip.2))

/-- `BaseContour._setStartSegment`: when the old last segment is a
curve or qcurve whose on-curve position equals the old first segment's
on-curve position, `self.removeSegment(0)` removes the first segment
and the target index is decremented; the rest of the procedure then
runs on the updated contour. -/
def setStartSegmentBody (pts : List Point) (segmentIndex : Nat) :
    Option (List Point) :=
  match segmentsIdxOf pts with
  | none => none
  | some segs =>
    if (segType (fun ip => ip.2.ptype) (segs.getD (segs.length - 1) []) =
          PointType.curve ∨
        segType (fun ip => ip.2.ptype) (segs.getD (segs.length - 1) []) =
          PointType.qcurve) ∧
        onCurveXY (segs.getD 0 []) = onCurveXY (segs.getD (segs.length - 1) [])
    then rotateToSegment (removeSegmentAt pts 0) (segmentIndex - 1)
    else rotateToSegment pts segmentIndex

/-- The claim's reading of the duplicate-elision rule, following the
spec wording: "the old last segment is dropped first and the target
index decremented accordingly".  Defined only to compare against the
source behaviour. -/
def setStartSegmentSpecClaim (pts : List Point) (segmentIndex : Nat) :
    Option (List Point) :=
  match segmentsIdxOf pts with
  | none => none
  | some segs =>
    if (segType (fun ip => ip.2.ptype) (segs.getD (segs.length - 1) []) =
          PointType.curve ∨
        segType (fun ip => ip.2.ptype) (segs.getD (segs.length - 1) []) =
          PointType.qcurve) ∧
        onCurveXY (segs.getD 0 []) = onCurveXY (segs.getD (segs.length - 1) [])
    then rotateToSegment (removeSegmentAt pts (segs.length - 1))
      (segmentIndex - 1)
    else rotateToSegment pts segmentIndex

/-- Open contour closed by a final curve back onto the move point: the
input of the C7 counterexample. -/
def c7pts : List Point :=
  [pt 0 0 PointType.move false, pt 10 0 PointType.line false,
   pt 10 6 PointType.offcurve false, pt 6 10 PointType.offcurve false,
   pt 0 0 PointType.curve false]

/-!
### reverse / setClockwise (C9)

`BaseContour.reverse` calls `self._reverseContour()`.  No method of
that name is defined: the subclass hook defined next to it is
`_reverse`, and the spec (which is the contract for the parts outside
the analysed sources, such as the deprecation mixins) defines no
`_reverseContour` either.  The call therefore raises
`AttributeError`.
-/

/-- `BaseContour.reverse`: `self._reverseContour()` — modelled from the
spec: no collaborator supplies `_reverseContour`, so the lookup raises
`AttributeError` before any point is touched. -/
def contourReverse (pts : List Point) : Except PyErr (List Point) :=
  Except.error PyErr.attributeError

/-- `BaseContour._set_clockwise`: reverse iff the current orientation
differs from the requested one.  The current orientation is an oracle
input (`_get_clockwise` is computed by a pen collaborator). -/
def setClockwise (pts : List Point) (current target : Bool) :
    Except PyErr (List Point) :=
  if current != target then contourReverse pts else Except.ok pts

/-- The clockwise square of Scenario B. -/
def sqB : List Point := sq4pts

/-!
### removeBPoint (C10)

From `BaseContour.removeBPoint`, `_removeBPoint` and `_get_bPoints`.
-/

/-- `BaseContour._get_bPoints`: one bPoint per point whose type is
move, line or curve, as the list of their positions. -/
def bPointIndices (pts : List Point) : List Nat :=
  ((pts.enum).filter (fun ip =>
    decide (ip.2.ptype = PointType.move ∨ ip.2.ptype = PointType.line ∨
      ip.2.ptype = PointType.curve))).map Prod.fst

/-- `if offCurves: self.removePoint(offCurves[0])` for the next
segment. -/
def removeFirstOff (ipts : List (Nat × Point))
    (seg : List (Nat × Point)) : List (Nat × Point) :=
  match seg.dropLast.head? with
  | some ip => removeById ipts ip.1
  | none => ipts

/-- `if offCurves: self.removePoint(offCurves[-1])` for the own
segment. -/
def removeLastOff (ipts : List (Nat × Point))
    (seg : List (Nat × Point)) : List (Nat × Point) :=
  match seg.dropLast.getLast? with
  | some ip => removeById ipts ip.1
  | none => ipts

/-- `BaseContour._removeBPoint`: look up `self.bPoints[index]`
(raising `IndexError` when out of range), remove the next segment's
first off-curve, re-derive the own segment on the mutated contour and
remove its last off-curve, then remove the on-curve point itself. -/
def removeBPointBody (pts : List Point) (index : Nat) :
    Except PyErr (List Point) :=
  match (bPointIndices pts)[index]? with
  | none => Except.error PyErr.indexError
  | some j =>
    match segmentsIdxOf pts with
    | none => Except.error PyErr.indexError
    | some segs =>
      match findSegPos segs j with
      | none => Except.error PyErr.valueError
      | some si =>
        match get_segments (fun ip => ip.2.ptype)
            (removeFirstOff pts.enum
              (segs.getD (nextSegIndex segs si.1) [])) with
        | none => Except.error PyErr.indexError
        | some segs2 =>
          match findSegPos segs2 j with
          | none => Except.error PyErr.attributeError
          | some sj =>
            Except.ok ((removeById
              (removeLastOff
                (removeFirstOff pts.enum
                  (segs.getD (nextSegIndex segs si.1) []))
                sj.2) j).map Prod.snd)

/-- `BaseContour.removeBPoint`: the bounds check is made against
`self._len__points()` — the point count, not the bPoint count. -/
def removeBPoint (pts : List Point) (bPoint : Nat) :
    Except PyErr (List Point) :=
  if bPoint ≥ pts.length then Except.error PyErr.fontPartsError
  else removeBPointBody pts bPoint

/-- A contour with four points but only two bPoints (line and curve
on-curve points). -/
def c10pts : List Point :=
  [pt 0 0 PointType.line false, pt 1 1 PointType.offcurve false,
   pt 2 2 PointType.offcurve false, pt 3 3 PointType.curve false]

/-- Decidable equality of embedded operation results. -/
instance {e a : Type} [DecidableEq e] [DecidableEq a] :
    DecidableEq (Except e a) := fun x y =>
  match x, y with
  | Except.ok u, Except.ok v =>
    if h : u = v then isTrue (by rw [h]) else isFalse (by simp [h])
  | Except.error u, Except.error v =>
    if h : u = v then isTrue (by rw [h]) else isFalse (by simp [h])
  | Except.ok _, Except.error _ => isFalse (by simp)
  | Except.error _, Except.ok _ => isFalse (by simp)

end FontParts

namespace FontParts

/-! ### Structure lemmas for `groupPts` -/

theorem groupPts_ne_nil {α : Type} (f : α → PointType) (p : α)
    (rest : List α) : groupPts f (p :: rest) ≠ [] := by
  by_cases h : f p = PointType.offcurve
  · cases hg : groupPts f rest with
    | nil => simp [groupPts, h, hg]
    | cons g gs => simp [groupPts, h, hg]
  · simp [groupPts, h]

theorem groupPts_flatten {α : Type} (f : α → PointType) :
    ∀ l : List α, (groupPts f l).flatten = l := by
  intro l
  induction l with
  | nil => rfl
  | cons p rest ih =>
    by_cases h : f p = PointType.offcurve
    · cases hg : groupPts f rest with
      | nil =>
        have hrest : rest = [] := by
          cases rest with
          | nil => rfl
          | cons q qs => exact absurd hg (groupPts_ne_nil f q qs)
        subst hrest
        simp [groupPts, h]
      | cons g gs =>
        have hstep : groupPts f (p :: rest) = (p :: g) :: gs := by
          simp [groupPts, h, hg]
        rw [hstep]
        have : ((p :: g) :: gs).flatten = p :: ((g :: gs).flatten) := by
          simp
        rw [this, ← hg, ih]
    · have hstep : groupPts f (p :: rest) = [p] :: groupPts f rest := by
        simp [groupPts, h]
      rw [hstep]
      simp [ih]

theorem groupPts_eq_nil_iff {α : Type} (f : α → PointType) (l : List α) :
    groupPts f l = [] ↔ l = [] := by
  constructor
  · intro h
    have := groupPts_flatten f l
    rw [h] at this
    simpa using this.symm
  · intro h
    subst h
    rfl

theorem groupPts_cons_unfold {α : Type} (f : α → PointType) (p : α)
    (l : List α) :
    groupPts f (p :: l) =
      if f p = PointType.offcurve then
        match groupPts f l with
        | [] => [[p]]
        | g :: gs => (p :: g) :: gs
      else [p] :: groupPts f l := rfl

theorem groupPts_cons_not_off {α : Type} (f : α → PointType) (p : α)
    (l : List α) (h : f p ≠ PointType.offcurve) :
    groupPts f (p :: l) = [p] :: groupPts f l := by
  rw [groupPts_cons_unfold, if_neg h]

theorem groupPts_cons_off_cons {α : Type} (f : α → PointType) (p : α)
    {l : List α} {g : List α} {gs : List (List α)}
    (hp : f p = PointType.offcurve) (hl : groupPts f l = g :: gs) :
    groupPts f (p :: l) = (p :: g) :: gs := by
  rw [groupPts_cons_unfold, if_pos hp, hl]

theorem isChunk_cons_off {α : Type} {f : α → PointType} {p : α}
    {g : List α} (hp : f p = PointType.offcurve) (hg : IsChunk f g) :
    IsChunk f (p :: g) := by
  obtain ⟨r, x, hgeq, hr, hx⟩ := hg
  refine ⟨p :: r, x, ?_, ?_, hx⟩
  · simp [hgeq]
  · intro q hq
    rcases List.mem_cons.mp hq with h1 | h2
    · subst h1; exact hp
    · exact hr q h2

theorem isChunk_singleton {α : Type} {f : α → PointType} {p : α}
    (h : f p ≠ PointType.offcurve) : IsChunk f [p] :=
  ⟨[], p, by simp, by simp, h⟩

/-- When the last point is on-curve, every group produced by the scan is
a complete segment: off-curve run plus terminating on-curve point. -/
theorem groupPts_last_not_off {α : Type} (f : α → PointType) :
    ∀ (l : List α) (hne : l ≠ []),
      f (l.getLast hne) ≠ PointType.offcurve →
      ∀ g ∈ groupPts f l, IsChunk f g := by
  intro l
  induction l with
  | nil => intro hne; exact absurd rfl hne
  | cons p rest ih =>
    intro hne hlast g hg
    cases rest with
    | nil =>
      have hp : f p ≠ PointType.offcurve := by simpa using hlast
      rw [groupPts_cons_not_off f p [] hp] at hg
      simp only [groupPts] at hg
      have : g = [p] := by simpa using hg
      subst this
      exact isChunk_singleton hp
    | cons q qs =>
      have hlast2 : f ((q :: qs).getLast (List.cons_ne_nil q qs)) ≠
          PointType.offcurve := by
        rwa [List.getLast_cons (List.cons_ne_nil q qs)] at hlast
      by_cases hp : f p = PointType.offcurve
      · cases hq : groupPts f (q :: qs) with
        | nil => exact absurd hq (groupPts_ne_nil f q qs)
        | cons g1 gs =>
          have hstep : groupPts f (p :: q :: qs) = (p :: g1) :: gs :=
            groupPts_cons_off_cons f p hp hq
          rw [hstep] at hg
          rcases List.mem_cons.mp hg with h1 | h2
          · subst h1
            have hg1 : IsChunk f g1 := by
              apply ih (List.cons_ne_nil q qs) hlast2
              rw [hq]; exact List.mem_cons_self g1 gs
            exact isChunk_cons_off hp hg1
          · apply ih (List.cons_ne_nil q qs) hlast2
            rw [hq]; exact List.mem_cons_of_mem g1 h2
      · rw [groupPts_cons_not_off f p (q :: qs) hp] at hg
        rcases List.mem_cons.mp hg with h1 | h2
        · subst h1; exact isChunk_singleton hp
        · exact ih (List.cons_ne_nil q qs) hlast2 g h2

/-- When the last point is off-curve, the groups are a list of complete
segments followed by the trailing all-off-curve run. -/
theorem groupPts_last_off {α : Type} (f : α → PointType) :
    ∀ (l : List α) (hne : l ≠ []),
      f (l.getLast hne) = PointType.offcurve →
      ∃ gs t, groupPts f l = gs ++ [t] ∧ t ≠ [] ∧ IsRun f t ∧
        ∀ g ∈ gs, IsChunk f g := by
  intro l
  induction l with
  | nil => intro hne; exact absurd rfl hne
  | cons p rest ih =>
    intro hne hlast
    cases rest with
    | nil =>
      have hp : f p = PointType.offcurve := by simpa using hlast
      refine ⟨[], [p], ?_, by simp, ?_, by simp⟩
      · simp [groupPts, hp]
      · intro q hq
        have : q = p := by simpa using hq
        subst this; exact hp
    | cons q qs =>
      have hlast2 : f ((q :: qs).getLast (List.cons_ne_nil q qs)) =
          PointType.offcurve := by
        rwa [List.getLast_cons (List.cons_ne_nil q qs)] at hlast
      obtain ⟨gs, t, hgroup, htne, htrun, hchunks⟩ :=
        ih (List.cons_ne_nil q qs) hlast2
      by_cases hp : f p = PointType.offcurve
      · cases gs with
        | nil =>
          refine ⟨[], p :: t, ?_, by simp, ?_, by simp⟩
          · simp only [List.nil_append] at hgroup
            rw [groupPts_cons_off_cons f p hp hgroup]
            simp
          · intro x hx
            rcases List.mem_cons.mp hx with h1 | h2
            · subst h1; exact hp
            · exact htrun x h2
        | cons g0 grest =>
          refine ⟨(p :: g0) :: grest, t, ?_, htne, htrun, ?_⟩
          · have hstep : groupPts f (p :: q :: qs) =
                (p :: g0) :: (grest ++ [t]) := by
              rw [List.cons_append] at hgroup
              exact groupPts_cons_off_cons f p hp hgroup
            simp [hstep]
          · intro g hgmem
            rcases List.mem_cons.mp hgmem with h1 | h2
            · subst h1
              have : IsChunk f g0 :=
                hchunks g0 (List.mem_cons_self g0 grest)
              exact isChunk_cons_off hp this
            · exact hchunks g (List.mem_cons_of_mem g0 h2)
      · refine ⟨[p] :: gs, t, ?_, htne, htrun, ?_⟩
        · rw [groupPts_cons_not_off f p (q :: qs) hp, hgroup]
          simp
        · intro g hgmem
          rcases List.mem_cons.mp hgmem with h1 | h2
          · subst h1; exact isChunk_singleton hp
          · exact hchunks g h2

/-! ### Case lemmas for `get_segments` -/

theorem get_segments_cons_unfold {α : Type} (f : α → PointType) (p0 : α)
    (rest : List α) :
    get_segments f (p0 :: rest) =
      if f ((p0 :: rest).getLast (List.cons_ne_nil p0 rest)) =
            PointType.offcurve ∧ f p0 = PointType.move then
        some (groupPts f (p0 :: rest)).dropLast
      else if f ((p0 :: rest).getLast (List.cons_ne_nil p0 rest)) =
            PointType.offcurve then
        match (groupPts f (p0 :: rest)).getLast? with
        | none => none
        | some t =>
          match (groupPts f (p0 :: rest)).dropLast with
          | [] => none
          | g0 :: gs =>
            match g0 with
            | [x] => some (gs ++ [t ++ [x]])
            | _ => none
      else if f p0 = PointType.move then
        some (groupPts f (p0 :: rest))
      else
        match groupPts f (p0 :: rest) with
        | [] => none
        | g0 :: gs => some (gs ++ [g0]) := rfl

/-- Open contour whose last point is on-curve: the groups are the
segments, in order. -/
theorem get_segments_open_pure {α : Type} (f : α → PointType) (p0 : α)
    (rest : List α) (hmove : f p0 = PointType.move)
    (hlast : f ((p0 :: rest).getLast (List.cons_ne_nil p0 rest)) ≠
      PointType.offcurve) :
    get_segments f (p0 :: rest) = some (groupPts f (p0 :: rest)) := by
  rw [get_segments_cons_unfold]
  rw [if_neg (by tauto), if_neg hlast, if_pos hmove]

/-- Open contour ending in off-curve points: the trailing run is
discarded. -/
theorem get_segments_open_trailing {α : Type} (f : α → PointType) (p0 : α)
    (rest : List α) (hmove : f p0 = PointType.move)
    (hlast : f ((p0 :: rest).getLast (List.cons_ne_nil p0 rest)) =
      PointType.offcurve) :
    get_segments f (p0 :: rest) =
      some (groupPts f (p0 :: rest)).dropLast := by
  rw [get_segments_cons_unfold]
  rw [if_pos ⟨hlast, hmove⟩]

/-- Closed contour whose last point is on-curve: the first group is
rotated to the end. -/
theorem get_segments_closed_rotate {α : Type} (f : α → PointType) (p0 : α)
    (rest : List α) (hmove : f p0 ≠ PointType.move)
    (hlast : f ((p0 :: rest).getLast (List.cons_ne_nil p0 rest)) ≠
      PointType.offcurve)
    {g0 : List α} {gs : List (List α)}
    (hg : groupPts f (p0 :: rest) = g0 :: gs) :
    get_segments f (p0 :: rest) = some (gs ++ [g0]) := by
  rw [get_segments_cons_unfold]
  rw [if_neg (by tauto), if_neg hlast, if_neg hmove, hg]

/-- Closed contour ending in off-curve points, with an on-curve first
point: the trailing run is spliced with the first point into the final
segment. -/
theorem get_segments_closed_splice {α : Type} (f : α → PointType) (p0 : α)
    (rest : List α) (hmove : f p0 ≠ PointType.move)
    (hp0 : f p0 ≠ PointType.offcurve)
    (hlast : f ((p0 :: rest).getLast (List.cons_ne_nil p0 rest)) =
      PointType.offcurve)
    {gs : List (List α)} {t : List α}
    (hrest : groupPts f rest = gs ++ [t]) :
    get_segments f (p0 :: rest) = some (gs ++ [t ++ [p0]]) := by
  rw [get_segments_cons_unfold]
  rw [if_neg (by tauto), if_pos hlast]
  have hgroups : groupPts f (p0 :: rest) = ([p0] :: gs) ++ [t] := by
    rw [groupPts_cons_not_off f p0 rest hp0, hrest]
    simp
  rw [hgroups]
  rw [List.getLast?_concat, List.dropLast_concat]

/-! ### Trailing off-curve runs -/

theorem dropWhile_append_all {α : Type} (pred : α → Bool) :
    ∀ (xs ys : List α), (∀ x ∈ xs, pred x = true) →
      List.dropWhile pred (xs ++ ys) = List.dropWhile pred ys := by
  intro xs ys h
  induction xs with
  | nil => simp
  | cons x xs ih =>
    have hx : pred x = true := h x (List.mem_cons_self x xs)
    rw [List.cons_append, List.dropWhile_cons_of_pos hx]
    exact ih (fun y hy => h y (List.mem_cons_of_mem x hy))

/-- Removing the maximal trailing off-curve run from `a ++ t`, where `t`
is all off-curve and `a` does not end in an off-curve point, gives `a`. -/
theorem dropTrailingOffCurves_append_run {α : Type} (f : α → PointType)
    (a t : List α) (hrun : IsRun f t)
    (ha : ∀ x, a.getLast? = some x → f x ≠ PointType.offcurve) :
    dropTrailingOffCurves f (a ++ t) = a := by
  unfold dropTrailingOffCurves
  rw [List.reverse_append]
  rw [dropWhile_append_all _ t.reverse a.reverse
    (by
      intro x hx
      have hxt : x ∈ t := List.mem_reverse.mp hx
      simp [hrun x hxt])]
  cases hae : a.reverse with
  | nil =>
    have : a = [] := by simpa using congrArg List.reverse hae
    simp [hae, this]
  | cons y ys =>
    have hane : a ≠ [] := by
      intro h
      rw [h] at hae
      simp at hae
    have hy : y = a.getLast hane := by
      have h1 : a.reverse.head? = some y := by rw [hae]; rfl
      rw [List.head?_reverse] at h1
      have h2 : a.getLast? = some (a.getLast hane) :=
        List.getLast?_eq_getLast a hane
      rw [h1] at h2
      exact Option.some.inj h2
    have hyoff : f y ≠ PointType.offcurve := by
      apply ha
      rw [List.getLast?_eq_getLast a hane, hy]
    rw [List.dropWhile_cons_of_neg (by simpa using hyoff)]
    rw [← hae, List.reverse_reverse]

end FontParts

namespace FontParts

theorem getLast_not_off_of_ne {α : Type} (f : α → PointType) (l : List α)
    (hne : l ≠ []) (h : f (l.getLast hne) ≠ PointType.offcurve) :
    ∀ x, l.getLast? = some x → f x ≠ PointType.offcurve := by
  intro x hx
  rw [List.getLast?_eq_getLast l hne] at hx
  have hxeq := Option.some.inj hx
  subst hxeq
  exact h

theorem dropTrailingOffCurves_of_last_not_off {α : Type}
    (f : α → PointType) (l : List α)
    (ha : ∀ x, l.getLast? = some x → f x ≠ PointType.offcurve) :
    dropTrailingOffCurves f l = l := by
  have h0 : IsRun f ([] : List α) := by intro p hp; simp at hp
  have := dropTrailingOffCurves_append_run f l [] h0 ha
  simpa using this

theorem flatten_chunks_last_not_off {α : Type} (f : α → PointType) :
    ∀ gs : List (List α), (∀ g ∈ gs, IsChunk f g) →
      ∀ x, gs.flatten.getLast? = some x → f x ≠ PointType.offcurve := by
  intro gs
  induction gs with
  | nil => intro _ x hx; simp at hx
  | cons g gr ih =>
    intro hch x hx
    rw [List.flatten_cons] at hx
    cases hgr : gr.flatten with
    | nil =>
      rw [hgr, List.append_nil] at hx
      obtain ⟨r, y, hgeq, hr, hy⟩ := hch g (List.mem_cons_self g gr)
      rw [hgeq, List.getLast?_concat] at hx
      have hxeq := Option.some.inj hx
      subst hxeq
      exact hy
    | cons z zs =>
      rw [hgr, List.getLast?_append_of_ne_nil g (by simp)] at hx
      apply ih (fun g2 hg2 => hch g2 (List.mem_cons_of_mem _ hg2)) x
      rw [hgr]
      exact hx

/-- **C1** (segment/point partition).  For any nonempty contour whose
point list satisfies the off-curve-run invariant (when the list ends in
an off-curve point and the contour is closed, its first point must be
on-curve — this is exactly the `assert` in `_get_segments`), the
segments derived by `_get_segments` partition the point list: every
segment is an off-curve run followed by its on-curve point, and
concatenating the segments yields the point list with its maximal
trailing off-curve run removed when the contour is open (first point is
a move; in particular the full list, in order, when the list ends
on-curve), and a rotation of the point list when the contour is
closed. -/
theorem segments_partition (p0 : Point) (rest : List Point)
    (hinv : ((p0 :: rest).getLast (List.cons_ne_nil p0 rest)).ptype =
        PointType.offcurve →
      p0.ptype ≠ PointType.move → p0.ptype ≠ PointType.offcurve) :
    ∃ segs, segmentsOf (p0 :: rest) = some segs ∧
      (∀ g ∈ segs, IsChunk Point.ptype g) ∧
      (p0.ptype = PointType.move →
        segs.flatten = dropTrailingOffCurves Point.ptype (p0 :: rest) ∧
        ∃ t, p0 :: rest = segs.flatten ++ t ∧ IsRun Point.ptype t) ∧
      (p0.ptype ≠ PointType.move →
        ∃ n, segs.flatten = (p0 :: rest).drop n ++ (p0 :: rest).take n) := by
  by_cases hmove : p0.ptype = PointType.move
  · by_cases hlast : ((p0 :: rest).getLast
        (List.cons_ne_nil p0 rest)).ptype = PointType.offcurve
    · -- open contour with a trailing off-curve run
      obtain ⟨gs, t, hgroup, htne, htrun, hchunks⟩ :=
        groupPts_last_off Point.ptype (p0 :: rest)
          (List.cons_ne_nil p0 rest) hlast
      refine ⟨(groupPts Point.ptype (p0 :: rest)).dropLast, ?_, ?_, ?_, ?_⟩
      · exact get_segments_open_trailing Point.ptype p0 rest hmove hlast
      · rw [hgroup, List.dropLast_concat]
        exact hchunks
      · intro _
        rw [hgroup, List.dropLast_concat]
        have hl : p0 :: rest = gs.flatten ++ t := by
          rw [← groupPts_flatten Point.ptype (p0 :: rest), hgroup]
          simp
        constructor
        · rw [hl]
          exact (dropTrailingOffCurves_append_run Point.ptype gs.flatten t
            htrun (flatten_chunks_last_not_off Point.ptype gs hchunks)).symm
        · exact ⟨t, hl, htrun⟩
      · intro h
        exact absurd hmove h
    · -- open contour ending on-curve
      refine ⟨groupPts Point.ptype (p0 :: rest), ?_, ?_, ?_, ?_⟩
      · exact get_segments_open_pure Point.ptype p0 rest hmove hlast
      · exact groupPts_last_not_off Point.ptype (p0 :: rest)
          (List.cons_ne_nil p0 rest) hlast
      · intro _
        rw [groupPts_flatten]
        constructor
        · exact (dropTrailingOffCurves_of_last_not_off Point.ptype
            (p0 :: rest) (getLast_not_off_of_ne Point.ptype (p0 :: rest)
              (List.cons_ne_nil p0 rest) hlast)).symm
        · exact ⟨[], by simp, fun p hp => by simp at hp⟩
      · intro h
        exact absurd hmove h
  · by_cases hlast : ((p0 :: rest).getLast
        (List.cons_ne_nil p0 rest)).ptype = PointType.offcurve
    · -- closed contour with a trailing off-curve run (splice)
      have hp0 : p0.ptype ≠ PointType.offcurve := hinv hlast hmove
      have hrestne : rest ≠ [] := by
        intro h
        subst h
        simp at hlast
        exact hp0 hlast
      have hlast2 : (rest.getLast hrestne).ptype = PointType.offcurve := by
        rwa [List.getLast_cons hrestne] at hlast
      obtain ⟨gs, t, hgroup, htne, htrun, hchunks⟩ :=
        groupPts_last_off Point.ptype rest hrestne hlast2
      refine ⟨gs ++ [t ++ [p0]], ?_, ?_, ?_, ?_⟩
      · exact get_segments_closed_splice Point.ptype p0 rest hmove hp0
          hlast hgroup
      · intro g hg
        rcases List.mem_append.mp hg with h1 | h2
        · exact hchunks g h1
        · have hgeq : g = t ++ [p0] := by simpa using h2
          subst hgeq
          exact ⟨t, p0, rfl, htrun, hp0⟩
      · intro h
        exact absurd h hmove
      · intro _
        refine ⟨1, ?_⟩
        have hrest_eq : rest = gs.flatten ++ t := by
          rw [← groupPts_flatten Point.ptype rest, hgroup]
          simp
        simp only [List.drop_one, List.take_cons, List.take_zero,
          List.tail_cons, List.flatten_append, List.flatten_cons,
          List.flatten_nil, List.append_nil]
        rw [hrest_eq]
        simp
    · -- closed contour ending on-curve (rotation)
      cases hg : groupPts Point.ptype (p0 :: rest) with
      | nil => exact absurd hg (groupPts_ne_nil Point.ptype p0 rest)
      | cons g0 gs =>
        refine ⟨gs ++ [g0], ?_, ?_, ?_, ?_⟩
        · exact get_segments_closed_rotate Point.ptype p0 rest hmove hlast hg
        · intro g hgm
          apply groupPts_last_not_off Point.ptype (p0 :: rest)
            (List.cons_ne_nil p0 rest) hlast
          rw [hg]
          rcases List.mem_append.mp hgm with h1 | h2
          · exact List.mem_cons_of_mem g0 h1
          · have hgeq : g = g0 := by simpa using h2
            rw [hgeq]
            exact List.mem_cons_self g0 gs
        · intro h
          exact absurd h hmove
        · intro _
          refine ⟨g0.length, ?_⟩
          have hl : p0 :: rest = g0 ++ gs.flatten := by
            rw [← groupPts_flatten Point.ptype (p0 :: rest), hg]
            simp
          rw [hl, List.drop_left, List.take_left]
          simp

end FontParts

namespace FontParts

/-- **C1** (segment/point partition).  For any nonempty contour whose
point list satisfies the off-curve-run invariant (when the point list
ends in an off-curve point and the contour is closed, the first point
must be on-curve — exactly the `assert` of `_get_segments`), the
segments derived by `_get_segments` partition the point list: every
segment is a run of off-curve points followed by its on-curve point;
concatenating the segments over all segments yields, for an open
contour (first point of type move), the point list with exactly its
maximal trailing off-curve run omitted (the full list, in original
order, when it ends on-curve), and, for a closed contour, a rotation of
the point list; being an equality of lists, no point is counted
twice. -/
theorem C1_segment_point_partition (p0 : Point) (rest : List Point)
    (hinv : ((p0 :: rest).getLast (List.cons_ne_nil p0 rest)).ptype =
        PointType.offcurve →
      p0.ptype ≠ PointType.move → p0.ptype ≠ PointType.offcurve) :
    ∃ segs, segmentsOf (p0 :: rest) = some segs ∧
      (∀ g ∈ segs, IsChunk Point.ptype g) ∧
      (p0.ptype = PointType.move →
        segs.flatten = dropTrailingOffCurves Point.ptype (p0 :: rest)) ∧
      (p0.ptype ≠ PointType.move →
        ∃ n, segs.flatten = (p0 :: rest).drop n ++ (p0 :: rest).take n) := by
  obtain ⟨segs, h1, h2, h3, h4⟩ := segments_partition p0 rest hinv
  exact ⟨segs, h1, h2, fun h => (h3 h).1, h4⟩

/-- Witness for C1 at a concrete closed contour of two curve segments
whose point list ends in off-curve points. -/
theorem C1_segment_point_partition_witness :
    ∃ segs, segmentsOf (spliceP0 :: spliceRest) = some segs ∧
      (∀ g ∈ segs, IsChunk Point.ptype g) ∧
      (spliceP0.ptype = PointType.move →
        segs.flatten = dropTrailingOffCurves Point.ptype
          (spliceP0 :: spliceRest)) ∧
      (spliceP0.ptype ≠ PointType.move →
        ∃ n, segs.flatten =
          (spliceP0 :: spliceRest).drop n ++ (spliceP0 :: spliceRest).take n) :=
  C1_segment_point_partition spliceP0 spliceRest (by decide)

/-! ### Counting for C2 -/

theorem countP_run_zero {α : Type} (f : α → PointType) (t : List α)
    (h : IsRun f t) :
    t.countP (fun p => decide (f p ≠ PointType.offcurve)) = 0 := by
  rw [List.countP_eq_zero]
  intro p hp
  simp [h p hp]

theorem countP_flatten_chunks {α : Type} (f : α → PointType) :
    ∀ gs : List (List α), (∀ g ∈ gs, IsChunk f g) →
      gs.flatten.countP (fun p => decide (f p ≠ PointType.offcurve)) =
        gs.length := by
  intro gs
  induction gs with
  | nil => intro _; rfl
  | cons g gr ih =>
    intro hch
    rw [List.flatten_cons, List.countP_append]
    obtain ⟨r, x, hgeq, hr, hx⟩ := hch g (List.mem_cons_self g gr)
    have hg1 : g.countP (fun p => decide (f p ≠ PointType.offcurve)) = 1 := by
      rw [hgeq, List.countP_append, countP_run_zero f r hr]
      simp [hx]
    rw [hg1, ih (fun g2 hg2 => hch g2 (List.mem_cons_of_mem _ hg2))]
    simp [List.length_cons, Nat.add_comm]

/-- **C2** (segment count invariant).  For any nonempty contour
satisfying the off-curve-run invariant, the number of segments returned
by `_get_segments` (which is what `BaseContour.__len__` reports) equals
the number of points whose type is not offcurve; discarding the
trailing off-curve run of an open contour does not change that count
since only off-curve points are discarded. -/
theorem C2_segment_count (p0 : Point) (rest : List Point)
    (hinv : ((p0 :: rest).getLast (List.cons_ne_nil p0 rest)).ptype =
        PointType.offcurve →
      p0.ptype ≠ PointType.move → p0.ptype ≠ PointType.offcurve) :
    ∃ segs, segmentsOf (p0 :: rest) = some segs ∧
      segs.length = (p0 :: rest).countP
        (fun p => decide (p.ptype ≠ PointType.offcurve)) := by
  obtain ⟨segs, h1, h2, h3, h4⟩ := segments_partition p0 rest hinv
  refine ⟨segs, h1, ?_⟩
  have hflat : segs.flatten.countP
      (fun p => decide (p.ptype ≠ PointType.offcurve)) = segs.length :=
    countP_flatten_chunks Point.ptype segs h2
  by_cases hmove : p0.ptype = PointType.move
  · obtain ⟨-, t, hsplit, htrun⟩ := h3 hmove
    rw [hsplit, List.countP_append, countP_run_zero Point.ptype t htrun,
      Nat.add_zero, hflat]
  · obtain ⟨n, hrot⟩ := h4 hmove
    rw [← hflat, hrot, List.countP_append, Nat.add_comm,
      ← List.countP_append, List.take_append_drop]

/-- Witness for C2: the closed three-line contour of P5 has three
segments, and inserting a fourth line point yields four. -/
theorem C2_segment_count_witness :
    ((∃ segs, segmentsOf (sqP0 :: sqRest) = some segs ∧
      segs.length = (sqP0 :: sqRest).countP
        (fun p => decide (p.ptype ≠ PointType.offcurve))) ∧
     (sqP0 :: sqRest).countP
        (fun p => decide (p.ptype ≠ PointType.offcurve)) = 3) ∧
    ((∃ segs, segmentsOf (sqP0 :: (sqRest ++ [sqP3])) = some segs ∧
      segs.length = (sqP0 :: (sqRest ++ [sqP3])).countP
        (fun p => decide (p.ptype ≠ PointType.offcurve))) ∧
     (sqP0 :: (sqRest ++ [sqP3])).countP
        (fun p => decide (p.ptype ≠ PointType.offcurve)) = 4 ∧
     sqP0 :: (sqRest ++ [sqP3]) =
       insertPoint (sqP0 :: sqRest) 3 sqP3) :=
  ⟨⟨C2_segment_count sqP0 sqRest (by decide), by decide⟩,
   ⟨C2_segment_count sqP0 (sqRest ++ [sqP3]) (by decide), by decide,
    by decide⟩⟩

end FontParts

namespace FontParts

/-! ### Lemmas for C3 -/

theorem compatStep_fatal_mono (segs1 segs2 : List (List Point))
    (r : CompatReporter) (i : Nat) (h : r.fatal = true) :
    (compatStep segs1 segs2 r i).fatal = true := by
  unfold compatStep
  split
  · dsimp only
    split
    · rfl
    · exact h
  · exact h

theorem compatStep_openDifference (segs1 segs2 : List (List Point))
    (r : CompatReporter) (i : Nat) :
    (compatStep segs1 segs2 r i).openDifference = r.openDifference := by
  unfold compatStep
  split
  · rfl
  · rfl

theorem foldl_compatStep_fatal_mono (segs1 segs2 : List (List Point)) :
    ∀ (l : List Nat) (r : CompatReporter), r.fatal = true →
      (l.foldl (compatStep segs1 segs2) r).fatal = true := by
  intro l
  induction l with
  | nil => intro r h; exact h
  | cons i l ih =>
    intro r h
    rw [List.foldl_cons]
    exact ih _ (compatStep_fatal_mono segs1 segs2 r i h)

theorem foldl_compatStep_openDifference (segs1 segs2 : List (List Point)) :
    ∀ (l : List Nat) (r : CompatReporter),
      (l.foldl (compatStep segs1 segs2) r).openDifference =
        r.openDifference := by
  intro l
  induction l with
  | nil => intro r; rfl
  | cons i l ih =>
    intro r
    rw [List.foldl_cons, ih, compatStep_openDifference]

theorem compatStep_zero_fatal (segs1 segs2 : List (List Point))
    (r : CompatReporter)
    (h : segType Point.ptype (segs1.getD 0 []) ≠
      segType Point.ptype (segs2.getD 0 [])) :
    (compatStep segs1 segs2 r 0).fatal = true := by
  have hfw : (segPairFW segs1 segs2 0).1 = true := by
    unfold segPairFW segmentPairCompat
    simpa using h
  unfold compatStep
  rw [if_pos (by rw [hfw]; rfl)]
  dsimp only
  rw [hfw]
  rfl

/-- The segments of an open contour start with the one-point move
segment. -/
theorem segments_head_move (p0 : Point) (rest : List Point)
    (hmove : p0.ptype = PointType.move) {segs : List (List Point)}
    (hseg : segmentsOf (p0 :: rest) = some segs) :
    ∃ gs, segs = [p0] :: gs := by
  have hp0off : p0.ptype ≠ PointType.offcurve := by
    rw [hmove]
    decide
  unfold segmentsOf at hseg
  by_cases hlast : ((p0 :: rest).getLast
      (List.cons_ne_nil p0 rest)).ptype = PointType.offcurve
  · rw [get_segments_open_trailing Point.ptype p0 rest hmove hlast] at hseg
    have hrestne : rest ≠ [] := by
      intro h
      subst h
      simp at hlast
      exact hp0off hlast
    cases rest with
    | nil => exact absurd rfl hrestne
    | cons q qs =>
      cases hg : groupPts Point.ptype (q :: qs) with
      | nil => exact absurd hg (groupPts_ne_nil Point.ptype q qs)
      | cons g1 gs1 =>
        rw [groupPts_cons_not_off Point.ptype p0 (q :: qs) hp0off, hg] at hseg
        refine ⟨(g1 :: gs1).dropLast, ?_⟩
        have : segs = ([p0] :: g1 :: gs1).dropLast := by
          exact (Option.some.inj hseg).symm
        rw [this]
        rfl
  · rw [get_segments_open_pure Point.ptype p0 rest hmove hlast] at hseg
    rw [groupPts_cons_not_off Point.ptype p0 rest hp0off] at hseg
    exact ⟨groupPts Point.ptype rest, (Option.some.inj hseg).symm⟩

/-- **C3** (interpolation compatibility).  For any two nonempty
contours satisfying the contour invariants (the off-curve-run assert
condition, and no move point anywhere in a closed contour), the report
built by `_isCompatible` is marked fatal when the two segment counts
differ, and also marked fatal when one contour is open and the other
closed; in the latter case the per-contour `openDifference` flag is set
as well, and `fatal` follows because the first compared segment pair
necessarily differs in type (move versus non-move). -/
theorem C3_isCompatible_fatal (p0 : Point) (rest : List Point)
    (q0 : Point) (qrest : List Point) (cw1 cw2 : Bool)
    (hinv1 : ((p0 :: rest).getLast (List.cons_ne_nil p0 rest)).ptype =
        PointType.offcurve →
      p0.ptype ≠ PointType.move → p0.ptype ≠ PointType.offcurve)
    (hinv2 : ((q0 :: qrest).getLast (List.cons_ne_nil q0 qrest)).ptype =
        PointType.offcurve →
      q0.ptype ≠ PointType.move → q0.ptype ≠ PointType.offcurve)
    (hnm1 : p0.ptype ≠ PointType.move →
      ∀ p ∈ p0 :: rest, p.ptype ≠ PointType.move)
    (hnm2 : q0.ptype ≠ PointType.move →
      ∀ p ∈ q0 :: qrest, p.ptype ≠ PointType.move) :
    ∃ segs1 segs2 r,
      segmentsOf (p0 :: rest) = some segs1 ∧
      segmentsOf (q0 :: qrest) = some segs2 ∧
      contourIsCompatible (p0 :: rest) (q0 :: qrest) cw1 cw2 = some r ∧
      (segs1.length ≠ segs2.length → r.fatal = true) ∧
      (contourOpen (p0 :: rest) ≠ contourOpen (q0 :: qrest) →
        r.fatal = true ∧ r.openDifference = true) := by
  obtain ⟨segs1, hs1, hch1, hopen1, hclosed1⟩ :=
    segments_partition p0 rest hinv1
  obtain ⟨segs2, hs2, hch2, hopen2, hclosed2⟩ :=
    segments_partition q0 qrest hinv2
  have hne1 : segs1 ≠ [] := by
    by_cases hm : p0.ptype = PointType.move
    · obtain ⟨gs, hgs⟩ := segments_head_move p0 rest hm hs1
      rw [hgs]
      exact List.cons_ne_nil _ _
    · obtain ⟨n, hrot⟩ := hclosed1 hm
      intro h
      rw [h] at hrot
      have : ((p0 :: rest).drop n ++ (p0 :: rest).take n).length =
          (p0 :: rest).length := by
        simp [Nat.add_comm]
        omega
      rw [← hrot] at this
      simp at this
  have hne2 : segs2 ≠ [] := by
    by_cases hm : q0.ptype = PointType.move
    · obtain ⟨gs, hgs⟩ := segments_head_move q0 qrest hm hs2
      rw [hgs]
      exact List.cons_ne_nil _ _
    · obtain ⟨n, hrot⟩ := hclosed2 hm
      intro h
      rw [h] at hrot
      have : ((q0 :: qrest).drop n ++ (q0 :: qrest).take n).length =
          (q0 :: qrest).length := by
        simp [Nat.add_comm]
        omega
      rw [← hrot] at this
      simp at this
  -- head segment types
  have hheadty1 : p0.ptype = PointType.move →
      segType Point.ptype (segs1.getD 0 []) = PointType.move := by
    intro hm
    obtain ⟨gs, hgs⟩ := segments_head_move p0 rest hm hs1
    rw [hgs]
    simp [segType, hm]
  have hheadty2 : q0.ptype = PointType.move →
      segType Point.ptype (segs2.getD 0 []) = PointType.move := by
    intro hm
    obtain ⟨gs, hgs⟩ := segments_head_move q0 qrest hm hs2
    rw [hgs]
    simp [segType, hm]
  have hheadclosed1 : p0.ptype ≠ PointType.move →
      segType Point.ptype (segs1.getD 0 []) ≠ PointType.move := by
    intro hm
    obtain ⟨s0, r2, hsegs⟩ := List.exists_cons_of_ne_nil hne1
    obtain ⟨r, x, hgeq, hr, hx⟩ :=
      hch1 s0 (by rw [hsegs]; exact List.mem_cons_self s0 r2)
    have hty : segType Point.ptype (segs1.getD 0 []) = x.ptype := by
      rw [hsegs]
      simp [segType, hgeq, List.getLast?_concat]
    rw [hty]
    apply hnm1 hm
    obtain ⟨n, hrot⟩ := hclosed1 hm
    have hxmem : x ∈ segs1.flatten := by
      rw [hsegs, List.flatten_cons]
      apply List.mem_append_left
      rw [hgeq]
      exact List.mem_append_right r (List.mem_singleton_self x)
    rw [hrot] at hxmem
    rcases List.mem_append.mp hxmem with h1 | h2
    · exact List.mem_of_mem_drop h1
    · exact List.mem_of_mem_take h2
  have hheadclosed2 : q0.ptype ≠ PointType.move →
      segType Point.ptype (segs2.getD 0 []) ≠ PointType.move := by
    intro hm
    obtain ⟨s0, r2, hsegs⟩ := List.exists_cons_of_ne_nil hne2
    obtain ⟨r, x, hgeq, hr, hx⟩ :=
      hch2 s0 (by rw [hsegs]; exact List.mem_cons_self s0 r2)
    have hty : segType Point.ptype (segs2.getD 0 []) = x.ptype := by
      rw [hsegs]
      simp [segType, hgeq, List.getLast?_concat]
    rw [hty]
    apply hnm2 hm
    obtain ⟨n, hrot⟩ := hclosed2 hm
    have hxmem : x ∈ segs2.flatten := by
      rw [hsegs, List.flatten_cons]
      apply List.mem_append_left
      rw [hgeq]
      exact List.mem_append_right r (List.mem_singleton_self x)
    rw [hrot] at hxmem
    rcases List.mem_append.mp hxmem with h1 | h2
    · exact List.mem_of_mem_drop h1
    · exact List.mem_of_mem_take h2
  -- assemble the report
  refine ⟨segs1, segs2,
    (List.range (min segs1.length segs2.length)).foldl
      (compatStep segs1 segs2)
      { openDifference :=
          contourOpen (p0 :: rest) != contourOpen (q0 :: qrest)
        directionDifference := cw1 != cw2
        segmentCountDifference := segs1.length != segs2.length
        fatal := segs1.length != segs2.length
        warning := false
        segments := [] },
    hs1, hs2, ?_, ?_, ?_⟩
  · simp only [contourIsCompatible, hs1, hs2]
  · intro hlen
    apply foldl_compatStep_fatal_mono
    simpa using hlen
  · intro hopen
    have hmm : p0.ptype = PointType.move ↔ ¬ q0.ptype = PointType.move := by
      unfold contourOpen firstIsMoveOf at hopen
      by_cases h1 : p0.ptype = PointType.move <;>
        by_cases h2 : q0.ptype = PointType.move <;>
          simp [h1, h2] at hopen ⊢
    have htyne : segType Point.ptype (segs1.getD 0 []) ≠
        segType Point.ptype (segs2.getD 0 []) := by
      by_cases h1 : p0.ptype = PointType.move
      · rw [hheadty1 h1]
        exact fun h => hheadclosed2 (hmm.mp h1) h.symm
      · have h2 : q0.ptype = PointType.move := by
          by_contra h2
          exact h1 (hmm.mpr h2)
        rw [hheadty2 h2]
        exact fun h => hheadclosed1 h1 h
    constructor
    · -- fatal via the first segment pair
      have hmin : ∃ k, min segs1.length segs2.length = k + 1 := by
        refine ⟨min segs1.length segs2.length - 1, ?_⟩
        have l1 : 0 < segs1.length := List.length_pos.mpr hne1
        have l2 : 0 < segs2.length := List.length_pos.mpr hne2
        omega
      obtain ⟨k, hk⟩ := hmin
      rw [hk, List.range_succ_eq_map, List.foldl_cons]
      apply foldl_compatStep_fatal_mono
      exact compatStep_zero_fatal segs1 segs2 _ htyne
    · -- openDifference flag
      rw [foldl_compatStep_openDifference]
      simpa using hopen

/-- Witness for C3: a one-segment open contour against a one-segment
closed contour; the report is fatal purely from the open/closed
difference. -/
theorem C3_isCompatible_fatal_witness :
    ∃ segs1 segs2 r,
      segmentsOf (pt 0 0 PointType.move false :: []) = some segs1 ∧
      segmentsOf (pt 0 0 PointType.line false :: []) = some segs2 ∧
      contourIsCompatible (pt 0 0 PointType.move false :: [])
        (pt 0 0 PointType.line false :: []) true true = some r ∧
      (segs1.length ≠ segs2.length → r.fatal = true) ∧
      (contourOpen (pt 0 0 PointType.move false :: []) ≠
          contourOpen (pt 0 0 PointType.line false :: []) →
        r.fatal = true ∧ r.openDifference = true) :=
  C3_isCompatible_fatal (pt 0 0 PointType.move false) []
    (pt 0 0 PointType.line false) [] true true
    (by decide) (by decide) (by decide) (by decide)

end FontParts

namespace FontParts

/-- **C8** (origin-anchored transform).  For every matrix and every
non-zero origin, the combined operation of `transformBy` — apply the
matrix, then translate by `originOffset = origin - matrix(origin)` —
leaves a point located exactly at the origin fixed.  (For origin
`(0, 0)` the source skips the offset computation and the point maps to
`(e, f)`, which is the plain translation semantics.) -/
theorem C8_transformBy_origin_fixed (m : AffineMatrix) (origin : ℚ × ℚ)
    (h : origin ≠ (0, 0)) :
    transformByAt m origin origin = origin := by
  obtain ⟨ox, oy⟩ := origin
  unfold transformByAt
  by_cases hz : originOffsetOf m (ox, oy) ≠ (0, 0)
  · rw [if_pos hz]
    unfold originOffsetOf
    rw [if_neg h]
    unfold transformPoint
    dsimp only
    rw [Prod.mk.injEq]
    constructor <;> ring
  · rw [if_neg hz]
    push_neg at hz
    unfold originOffsetOf at hz
    rw [if_neg h] at hz
    unfold transformPoint at hz ⊢
    dsimp only at hz ⊢
    rw [Prod.mk.injEq] at hz ⊢
    obtain ⟨h1, h2⟩ := hz
    constructor <;> linarith

/-- Witness for C8 at a concrete scaling matrix and origin (3, 4). -/
theorem C8_transformBy_origin_fixed_witness :
    transformByAt ⟨2, 0, 0, 2, 1, 1⟩ (3, 4) (3, 4) = ((3 : ℚ), (4 : ℚ)) :=
  C8_transformBy_origin_fixed ⟨2, 0, 0, 2, 1, 1⟩ (3, 4) (by decide)

/-- **C9** (code bug evaluation).  On the clockwise square, asking for
counter-clockwise orientation triggers `reverse()`, whose body
`self._reverseContour()` raises `AttributeError`: no such method exists
(the subclass hook defined in the class is `_reverse`).  The claim's
expected behaviour — the point order is reversed without error — never
happens. -/
theorem C9_setClockwise_attribute_error :
    setClockwise sqB true false = Except.error PyErr.attributeError := rfl

/-- `_removeBPoint` can never raise the "No bPoint located at index"
FontPartsError: that check lives only in the `removeBPoint` wrapper. -/
theorem removeBPointBody_ne_fpe (pts : List Point) (i : Nat) :
    removeBPointBody pts i ≠ Except.error PyErr.fontPartsError := by
  intro h
  unfold removeBPointBody at h
  repeat' split at h
  all_goals simp at h

/-- **C10** (removeBPoint bounds check).  The integer-index bounds
check of `removeBPoint` is made against the contour's point count, so
the "No bPoint located at index" FontPartsError is raised exactly when
`i >= pointCount`; any index with `bPointCount <= i < pointCount`
passes the check and `_removeBPoint` then fails looking up
`self.bPoints[i]` (IndexError). -/
theorem C10_removeBPoint_bounds (pts : List Point) (i : Nat) :
    (removeBPoint pts i = Except.error PyErr.fontPartsError ↔
      pts.length ≤ i) ∧
    ((bPointIndices pts).length ≤ i → i < pts.length →
      removeBPoint pts i = Except.error PyErr.indexError) := by
  constructor
  · constructor
    · intro h
      by_contra hlt
      push_neg at hlt
      unfold removeBPoint at h
      rw [if_neg (by omega)] at h
      exact removeBPointBody_ne_fpe pts i h
    · intro h
      unfold removeBPoint
      rw [if_pos (by omega)]
  · intro hb hlen
    unfold removeBPoint
    rw [if_neg (by omega)]
    unfold removeBPointBody
    rw [List.getElem?_eq_none (by omega)]

/-- Witness for C10 on a contour with four points and two bPoints at
index 2 (a valid point index but not a bPoint index). -/
theorem C10_removeBPoint_bounds_witness :
    removeBPoint c10pts 2 = Except.error PyErr.indexError ∧
    (bPointIndices c10pts).length ≤ 2 ∧ 2 < c10pts.length :=
  ⟨(C10_removeBPoint_bounds c10pts 2).2 (by decide) (by decide),
   by decide, by decide⟩

/-- **C4** (code bug evaluation).  On the closed square,
`insertBPoint(0, "curve", (5,5), (-2,0), (2,0))` inserts the new curve
segment's points, but then dereferences the binding `newSegment =
self.insertSegment(...)`, which is `None` because `insertSegment`
returns nothing, raising `AttributeError` at
`newSegment.offCurve[1]`.  The claimed successful result (an added
on-curve point at (5,5) flanked by off-curves at (3,5) and (7,5)) is
never produced. -/
theorem C4_insertBPoint_attribute_error :
    insertBPointE sq4pts 0 BPointType.curve (5, 5) (-2, 0) (2, 0) =
      Except.error PyErr.attributeError := by
  decide

/-- **C5** (code bug evaluation).  On an all-curve closed contour,
setting `bcpIn = (0,0)` on the bPoint at point 0 moves the incoming
off-curve onto the anchor (the segment stays a curve), and the
following `bcpOut = (0,0)` reaches the branch `offCurves.type =
"line"`, an attribute assignment on the off-curve tuple, which raises
`AttributeError` instead of downgrading the segment to a line with
smooth cleared. -/
theorem C5_bcp_collapse_crashes :
    setBcpIn c5pts 0 (0, 0) = Except.ok c5mid ∧
    setBcpOut c5mid 0 (0, 0) = Except.error PyErr.attributeError := by
  constructor
  · decide
  · decide

end FontParts

namespace FontParts

/-- **C7 counterexample**.  On the open contour
`[move(0,0), line(10,0), off(10,6), off(6,10), curve(0,0)]` with target
index 1 the duplicate-elision condition holds (last segment is a curve
ending at the first segment's on-curve position), but the source drops
the *first* segment (the move point) — the spec-claimed behaviour of
dropping the *last* segment produces a different contour. -/
theorem C7_setStartSegment_counterexample :
    setStartSegmentBody c7pts 1 ≠ setStartSegmentSpecClaim c7pts 1 ∧
    setStartSegmentBody c7pts 1 =
      some [pt 10 6 PointType.offcurve false, pt 6 10 PointType.offcurve false,
            pt 0 0 PointType.curve false, pt 10 0 PointType.line false] ∧
    setStartSegmentSpecClaim c7pts 1 =
      some [pt 0 0 PointType.line false, pt 10 0 PointType.line false] := by
  refine ⟨?_, by decide, by decide⟩
  decide

/-- **C7 (amended)**.  In `_setStartSegment`, when the old last segment
has type curve or qcurve and its on-curve position equals the old first
segment's on-curve position, the old *first* segment is dropped (its
points are removed by `self.removeSegment(0)`) before the rotation and
the target index is decremented by one — the remainder of the
procedure then runs on the reduced contour; and in that remainder, if
the first segment's on-curve point has type move, it is retyped to line
before the segments are reordered and the point list rebuilt. -/
theorem C7_setStartSegment_drops_first (pts : List Point)
    (segs : List (List (Nat × Point)))
    (hsegs : segmentsIdxOf pts = some segs)
    (hcond : (segType (fun ip => ip.2.ptype) (segs.getD (segs.length - 1) []) =
          PointType.curve ∨
        segType (fun ip => ip.2.ptype) (segs.getD (segs.length - 1) []) =
          PointType.qcurve) ∧
      onCurveXY (segs.getD 0 []) = onCurveXY (segs.getD (segs.length - 1) []))
    (i : Nat) :
    (setStartSegmentBody pts i =
      rotateToSegment (removeSegmentAt pts 0) (i - 1)) ∧
    (∀ pts2 segs2, segmentsIdxOf pts2 = some segs2 →
      ∀ k q, (segs2.getD 0 []).getLast? = some (k, q) →
        q.ptype = PointType.move → ∀ j,
        rotateToSegment pts2 j =
          some (((segs2.drop j ++ segs2.take j).flatten).map
            (fun ip => (updateAt pts2 k
              (fun r => { r with ptype := PointType.line })).getD ip.1 ip.2))) := by
  constructor
  · simp only [setStartSegmentBody, hsegs]
    rw [if_pos hcond]
  · intro pts2 segs2 hsegs2 k q hterm hq j
    simp only [rotateToSegment, hsegs2, hterm, hq]
    rfl

/-- Witness for the amended C7 at the counterexample contour. -/
theorem C7_setStartSegment_drops_first_witness :
    (setStartSegmentBody c7pts 1 =
      rotateToSegment (removeSegmentAt c7pts 0) (1 - 1)) ∧
    (∀ pts2 segs2, segmentsIdxOf pts2 = some segs2 →
      ∀ k q, (segs2.getD 0 []).getLast? = some (k, q) →
        q.ptype = PointType.move → ∀ j,
        rotateToSegment pts2 j =
          some (((segs2.drop j ++ segs2.take j).flatten).map
            (fun ip => (updateAt pts2 k
              (fun r => { r with ptype := PointType.line })).getD ip.1 ip.2))) :=
  C7_setStartSegment_drops_first c7pts
    [[(0, pt 0 0 PointType.move false)], [(1, pt 10 0 PointType.line false)],
     [(2, pt 10 6 PointType.offcurve false),
      (3, pt 6 10 PointType.offcurve false),
      (4, pt 0 0 PointType.curve false)]]
    (by decide) (by decide) 1

end FontParts

namespace FontParts

/-- **C6** (handle setters on move segments).  For a bPoint wrapping
the point at position `i` of a contour: `_set_bcpIn` raises
FontPartsError if and only if the bPoint's own segment has type move
and the new vector is non-zero; `_set_bcpOut` raises FontPartsError if
and only if the next segment (the one the outgoing handle belongs to)
has type move and the new vector is non-zero; and setting either handle
to `(0, 0)` at those positions does not raise at all (it is a no-op
because a move segment carries no off-curve points — hypotheses
`hmoveOwn`/`hmoveNext`, a consequence of the contour invariant that a
move is only ever the first point of an open contour). -/
theorem C6_bcp_move_errors (pts : List Point) (i : Nat) (v : ℤ × ℤ)
    (p : Point) (hp : pts[i]? = some p)
    (segs : List (List (Nat × Point)))
    (hsegs : segmentsIdxOf pts = some segs)
    (si : Nat × List (Nat × Point)) (hfind : findSegPos segs i = some si)
    (hmoveOwn : segType (fun ip => ip.2.ptype) si.2 = PointType.move →
      si.2.dropLast = [])
    (hmoveNext : segType (fun ip => ip.2.ptype)
        (segs.getD (nextSegIndex segs si.1) []) = PointType.move →
      (segs.getD (nextSegIndex segs si.1) []).dropLast = []) :
    (setBcpIn pts i v = Except.error PyErr.fontPartsError ↔
      segType (fun ip => ip.2.ptype) si.2 = PointType.move ∧ v ≠ (0, 0)) ∧
    (setBcpOut pts i v = Except.error PyErr.fontPartsError ↔
      segType (fun ip => ip.2.ptype)
        (segs.getD (nextSegIndex segs si.1) []) = PointType.move ∧
      v ≠ (0, 0)) ∧
    (segType (fun ip => ip.2.ptype) si.2 = PointType.move →
      setBcpIn pts i (0, 0) = Except.ok pts) ∧
    (segType (fun ip => ip.2.ptype)
        (segs.getD (nextSegIndex segs si.1) []) = PointType.move →
      setBcpOut pts i (0, 0) = Except.ok pts) := by
  refine ⟨?_, ?_, ?_, ?_⟩
  · simp only [setBcpIn, hp, hsegs, hfind]
    by_cases hcond : segType (fun ip => ip.2.ptype) si.2 = PointType.move ∧
        v ≠ (0, 0)
    · rw [if_pos hcond]
      exact ⟨fun _ => hcond, fun _ => rfl⟩
    · rw [if_neg hcond]
      constructor
      · intro h
        exfalso
        revert h
        split
        · split
          · intro h
            exact Except.noConfusion h
          · intro h
            exact Except.noConfusion h
        · split
          · intro h
            exact Except.noConfusion h
          · intro h
            exact Except.noConfusion h
      · intro hc
        exact absurd hc hcond
  · simp only [setBcpOut, hp, hsegs, hfind]
    by_cases hcond : segType (fun ip => ip.2.ptype)
        (segs.getD (nextSegIndex segs si.1) []) = PointType.move ∧
        v ≠ (0, 0)
    · rw [if_pos hcond]
      exact ⟨fun _ => hcond, fun _ => rfl⟩
    · rw [if_neg hcond]
      constructor
      · intro h
        exfalso
        revert h
        split
        · split
          · intro h
            have := Except.error.inj h
            exact PyErr.noConfusion this
          · intro h
            exact Except.noConfusion h
        · split
          · split
            · intro h
              have := Except.error.inj h
              exact PyErr.noConfusion this
            · intro h
              exact Except.noConfusion h
          · intro h
            exact Except.noConfusion h
      · intro hc
        exact absurd hc hcond
  · intro hmove
    simp only [setBcpIn, hp, hsegs, hfind]
    rw [if_neg (by simp)]
    rw [hmoveOwn hmove]
    simp
  · intro hmove
    simp only [setBcpOut, hp, hsegs, hfind]
    rw [if_neg (by simp)]
    rw [hmoveNext hmove]
    simp

/-- Witness for C6: the open contour `[move(0,0), line(10,0)]`; setting
`bcpIn` of the first bPoint to a non-zero vector raises, setting it to
`(0, 0)` is a no-op. -/
theorem C6_bcp_move_errors_witness :
    ((setBcpIn [pt 0 0 PointType.move false, pt 10 0 PointType.line false]
        0 (1, 2) = Except.error PyErr.fontPartsError ↔
      segType (fun ip => ip.2.ptype)
        [(0, pt 0 0 PointType.move false)] = PointType.move ∧
        ((1, 2) : ℤ × ℤ) ≠ (0, 0)) ∧
    (setBcpOut [pt 0 0 PointType.move false, pt 10 0 PointType.line false]
        0 (1, 2) = Except.error PyErr.fontPartsError ↔
      segType (fun ip => ip.2.ptype)
        ([[(0, pt 0 0 PointType.move false)],
          [(1, pt 10 0 PointType.line false)]].getD
          (nextSegIndex [[(0, pt 0 0 PointType.move false)],
            [(1, pt 10 0 PointType.line false)]] 0) []) = PointType.move ∧
        ((1, 2) : ℤ × ℤ) ≠ (0, 0)) ∧
    (segType (fun ip => ip.2.ptype)
        [(0, pt 0 0 PointType.move false)] = PointType.move →
      setBcpIn [pt 0 0 PointType.move false, pt 10 0 PointType.line false]
        0 (0, 0) =
        Except.ok [pt 0 0 PointType.move false, pt 10 0 PointType.line false]) ∧
    (segType (fun ip => ip.2.ptype)
        ([[(0, pt 0 0 PointType.move false)],
          [(1, pt 10 0 PointType.line false)]].getD
          (nextSegIndex [[(0, pt 0 0 PointType.move false)],
            [(1, pt 10 0 PointType.line false)]] 0) []) = PointType.move →
      setBcpOut [pt 0 0 PointType.move false, pt 10 0 PointType.line false]
        0 (0, 0) =
        Except.ok [pt 0 0 PointType.move false, pt 10 0 PointType.line false])) ∧
    setBcpIn [pt 0 0 PointType.move false, pt 10 0 PointType.line false]
      0 (1, 2) = Except.error PyErr.fontPartsError :=
  ⟨C6_bcp_move_errors
    [pt 0 0 PointType.move false, pt 10 0 PointType.line false] 0 (1, 2)
    (pt 0 0 PointType.move false) (by decide)
    [[(0, pt 0 0 PointType.move false)], [(1, pt 10 0 PointType.line false)]]
    (by decide)
    (0, [(0, pt 0 0 PointType.move false)]) (by decide)
    (by decide) (by decide), by decide⟩

end FontParts
